import Mathlib

/-!
Verification development for the LORA-Comms device management core.

The repository ships the C boundary header src/Shared/lora_comms_bridge.h,
which declares the structures CDeviceInfo, CDeviceArray, CNodeInfo,
CNodeArray and the functions lora_comms_init, lora_comms_cleanup,
lora_comms_scan_devices, lora_comms_connect_device, lora_comms_send_message,
lora_comms_get_nodes and the release operations.  The implementation behind
those declarations is not part of the repository, so the behavior of the
Device and Mesh State Manager is modelled here from the specification
(spec.md), faithful to its words; the structure shapes are translated from
the header.

C strings crossing the boundary are byte sequences; they are embedded as
lists of natural numbers.  Transport outcomes (open, handshake, write) are
test-double booleans passed explicitly, matching the testable-properties
section of the specification.
-/

/-- Byte sequences standing for the C strings and raw transport bytes of the
bridge; a null-terminated char pointer of the header becomes the list of its
bytes. -/
abbrev Bytes := List Nat

/-- Translated from the header: CNodeInfo with fields id, name, short_name
and is_online. -/
structure NodeDescriptor where
  id : Bytes
  name : Bytes
  short_name : Bytes
  is_online : Bool
deriving DecidableEq

/-- Translated from the header: CDeviceInfo with its eight fields. -/
structure DeviceDescriptor where
  id : Bytes
  name : Bytes
  path : Bytes
  device_type : Nat
  manufacturer : Bytes
  vendor_id : Bytes
  product_id : Bytes
  is_available : Bool
deriving DecidableEq

/-- Modelled from the spec: the decoded protocol events emitted by the
Protocol Codec (section 4.3); the codec implementation is absent from the
repository sources. -/
inductive ProtocolEvent where
  | nodeAnnouncement (n : NodeDescriptor)
  | nodeDeparture (id : Bytes)
  | messageAck (id : Bytes)
  | statusUpdate
deriving DecidableEq

/-- Frame body tag for an outgoing application message. -/
def MSG_TAG : Nat := 1

/-- Frame body tag for a node announcement event. -/
def ANNOUNCE_TAG : Nat := 2

/-- Frame body tag for a node departure event. -/
def DEPART_TAG : Nat := 3

/-- Frame body tag for a message acknowledgement event. -/
def ACK_TAG : Nat := 4

/-- Frame body tag for a status update event. -/
def STATUS_TAG : Nat := 5

/-- Modelled from the spec: the encoder of the Protocol Codec (section 4.3),
absent from the repository sources.  Given a message and a destination it
produces one length-prefixed frame respecting the device maximum payload
size; a message longer than the limit makes the send fail (the encoder
returns none) rather than silently truncate. -/
def encodeMessage (maxPayload : Nat) (message destination : Bytes) : Option Bytes :=
  if message.length ≤ maxPayload then
    let body : Bytes := MSG_TAG :: destination.length :: (destination ++ message)
    if body.length ≤ 255 ∧ destination.length ≤ 255 then
      some (body.length :: body)
    else none
  else none

/-- Modelled from the spec: parsing of one length-prefixed field inside a
frame body, returning the field and the remaining bytes. -/
def parseField (b : Bytes) : Option (Bytes × Bytes) :=
  match b with
  | [] => none
  | len :: rest => if len ≤ rest.length then some (rest.take len, rest.drop len) else none

/-- Modelled from the spec: parsing of one complete inbound frame body into a
decoded event; none means the frame is malformed and is discarded by the
decoder (section 4.3), absent from the repository sources. -/
def parseBody (body : Bytes) : Option ProtocolEvent :=
  match body with
  | [] => none
  | tag :: rest =>
    if tag = ANNOUNCE_TAG then
      match parseField rest with
      | none => none
      | some (nid, r1) =>
        match parseField r1 with
        | none => none
        | some (nname, r2) =>
          match parseField r2 with
          | none => none
          | some (nshort, r3) =>
            if r3 = [] then some (ProtocolEvent.nodeAnnouncement ⟨nid, nname, nshort, true⟩)
            else none
    else if tag = DEPART_TAG then some (ProtocolEvent.nodeDeparture rest)
    else if tag = ACK_TAG then some (ProtocolEvent.messageAck rest)
    else if tag = STATUS_TAG then
      if rest = [] then some ProtocolEvent.statusUpdate else none
    else none

/-- Modelled from the spec: the decoder of the Protocol Codec (section 4.3),
absent from the repository sources.  It consumes an append-only byte buffer,
extracts complete length-prefixed frames, emits the decoded events, discards
malformed frames, and leaves an incomplete trailing frame buffered. -/
def decodeEvents : Bytes → List ProtocolEvent × Bytes
  | [] => ([], [])
  | len :: rest =>
    if _h : len ≤ rest.length then
      let res := decodeEvents (rest.drop len)
      match parseBody (rest.take len) with
      | some ev => (ev :: res.1, res.2)
      | none => res
    else ([], len :: rest)
termination_by b => b.length
decreasing_by simp [List.length_drop]; omega

/-- Modelled from the spec: loopback decoding of a single produced message
frame back into the pair of message and destination (testable property of
section 8), absent from the repository sources. -/
def decodeMessageFrame (wire : Bytes) : Option (Bytes × Bytes) :=
  match wire with
  | [] => none
  | len :: rest =>
    if len = rest.length then
      match rest with
      | tag :: dlen :: body =>
        if tag = MSG_TAG ∧ dlen ≤ body.length then
          some (body.drop dlen, body.take dlen)
        else none
      | _ => none
    else none

/-- Modelled from the spec: the Node Registry update rules (section 4.4),
absent from the repository sources.  A node announcement upserts the
descriptor with is_online set true; a node departure sets is_online false on
an existing entry, retaining the descriptor; other events leave the registry
unchanged. -/
def applyEvent (reg : List NodeDescriptor) (ev : ProtocolEvent) : List NodeDescriptor :=
  match ev with
  | ProtocolEvent.nodeAnnouncement n =>
    if reg.any (fun m => decide (m.id = n.id)) then
      reg.map (fun m => if m.id = n.id then { n with is_online := true } else m)
    else
      reg ++ [{ n with is_online := true }]
  | ProtocolEvent.nodeDeparture j =>
    reg.map (fun m => if m.id = j then { m with is_online := false } else m)
  | _ => reg

/-- The final Node Registry after feeding a sequence of decoded events to an
initially empty table. -/
def applyEvents (evs : List ProtocolEvent) : List NodeDescriptor :=
  evs.foldl applyEvent []

/-- Registry lookup: the first (and, by the nodup invariant, only) entry of
the snapshot carrying the given node id. -/
def lookupNode (reg : List NodeDescriptor) (id : Bytes) : Option NodeDescriptor :=
  reg.find? (fun m => decide (m.id = id))

/-- Node ids occurring in a sequence of events, through announcements or
departures. -/
def appearedIds : List ProtocolEvent → List Bytes
  | [] => []
  | ProtocolEvent.nodeAnnouncement n :: r => n.id :: appearedIds r
  | ProtocolEvent.nodeDeparture j :: r => j :: appearedIds r
  | _ :: r => appearedIds r

/-- The descriptor announced for a given node id by a single event, if that
event is an announcement for the id. -/
def announceValue (id : Bytes) (ev : ProtocolEvent) : Option NodeDescriptor :=
  match ev with
  | ProtocolEvent.nodeAnnouncement n => if n.id = id then some n else none
  | _ => none

/-- The online status dictated for a given node id by a single event: true
for an announcement of the id, false for a departure of the id. -/
def onlineValue (id : Bytes) (ev : ProtocolEvent) : Option Bool :=
  match ev with
  | ProtocolEvent.nodeAnnouncement n => if n.id = id then some true else none
  | ProtocolEvent.nodeDeparture j => if j = id then some false else none
  | _ => none

/-- The descriptor carried by the last announcement for a given node id in a
sequence of events, if any; later events take precedence. -/
def lastAnnouncementFor (id : Bytes) : List ProtocolEvent → Option NodeDescriptor
  | [] => none
  | ev :: rest => (lastAnnouncementFor id rest).or (announceValue id ev)

/-- The online status dictated by the last announcement or departure event
for a given node id, none when no such event occurred. -/
def onlineAfter (id : Bytes) : List ProtocolEvent → Option Bool
  | [] => none
  | ev :: rest => (onlineAfter id rest).or (onlineValue id ev)

/-- The specified registry entry for a node id after a sequence of events:
the last announced descriptor, with is_online given by the last announcement
or departure event for that id. -/
def specEntry (evs : List ProtocolEvent) (id : Bytes) : Option NodeDescriptor :=
  (lastAnnouncementFor id evs).map
    (fun n => { n with is_online := (onlineAfter id evs).getD true })

/-- Modelled from the spec: the connection state machine of section 4.2,
absent from the repository sources. -/
inductive ConnState where
  | disconnected
  | connecting
  | connected
  | failed (reason : Bytes)
deriving DecidableEq

/-- Modelled from the spec: a Connection (section 3) owning one transport,
one protocol session and one Node Registry; the implementation is absent
from the repository sources.  The device maximum payload size used by the
encoder lives on the connection. -/
structure Connection where
  deviceId : Bytes
  path : Bytes
  deviceType : Nat
  maxPayload : Nat
  state : ConnState
  registry : List NodeDescriptor
  buffer : Bytes
deriving DecidableEq

/-- Modelled from the spec: the Manager state (sections 3 and 4.1), absent
from the repository sources.  setupFailed records a construction that could
not proceed, in which case every subsequent operation reports failure; opens
and closes are the test-double transport counters of the testable properties
in section 8. -/
structure Manager where
  setupFailed : Bool
  conns : List Connection
  opens : Nat
  closes : Nat
deriving DecidableEq

/-- Device ids are derived injectively from the transport path when a
connection is created. -/
def deviceIdFor (path : Bytes) : Bytes := 100 :: path

/-- Number of connections currently holding an open transport. -/
def connectedCount (cs : List Connection) : Nat :=
  (cs.filter (fun c => decide (c.state = ConnState.connected))).length

/-- Modelled from the spec: lora_comms_init never fails (section 4.1); when
internal setup cannot proceed the returned handle marks itself failed and
every subsequent operation reports failure.  The setup outcome is a
test-double boolean. -/
def Manager.init (setupOk : Bool) : Manager :=
  { setupFailed := !setupOk, conns := [], opens := 0, closes := 0 }

/-- Lookup of the connection owning a given device id. -/
def Manager.findConn (m : Manager) (deviceId : Bytes) : Option Connection :=
  m.conns.find? (fun c => decide (c.deviceId = deviceId))

/-- Modelled from the spec: lora_comms_connect_device (section 4.1), absent
from the repository sources.  If the device at the path is already connected
the existing device id is returned unchanged and no second transport is
opened; otherwise a fresh attempt opens the transport and runs the
handshake, counting one open, and one close when the handshake fails.
Transport outcomes are test-double booleans. -/
def Manager.connectFresh (m : Manager) (path : Bytes) (deviceType : Nat)
    (openOk handshakeOk : Bool) (maxPayload : Nat) : Option Bytes × Manager :=
  let rest := m.conns.filter (fun c => decide (c.path ≠ path))
  if openOk then
    if handshakeOk then
      (some (deviceIdFor path),
       { m with
           conns := rest ++
             [⟨deviceIdFor path, path, deviceType, maxPayload, ConnState.connected, [], []⟩],
           opens := m.opens + 1 })
    else
      (none,
       { m with
           conns := rest ++
             [⟨deviceIdFor path, path, deviceType, maxPayload, ConnState.failed [], [], []⟩],
           opens := m.opens + 1,
           closes := m.closes + 1 })
  else (none, { m with conns := rest })

/-- Modelled from the spec: lora_comms_connect_device (section 4.1), absent
from the repository sources.  If the device at the path is already connected
the existing device id is returned unchanged and no second transport is
opened; otherwise a fresh attempt replaces any stale connection for the
path. -/
def Manager.connectDevice (m : Manager) (path : Bytes) (deviceType : Nat)
    (openOk handshakeOk : Bool) (maxPayload : Nat) : Option Bytes × Manager :=
  if m.setupFailed then (none, m)
  else
    match m.conns.find? (fun c => decide (c.path = path)) with
    | some c =>
      if c.state = ConnState.connected then (some c.deviceId, m)
      else m.connectFresh path deviceType openOk handshakeOk maxPayload
    | none => m.connectFresh path deviceType openOk handshakeOk maxPayload

/-- Modelled from the spec: lora_comms_send_message (section 4.1), absent
from the repository sources.  It requires an existing connected connection,
encodes the message through the Protocol Codec and writes the frame through
the transport; a write failure is a transport failure, which disconnects the
connection and closes its transport (section 4.2).  The write outcome is a
test-double boolean. -/
def Manager.sendMessage (m : Manager) (deviceId message destination : Bytes)
    (writeOk : Bool) : Bool × Manager :=
  if m.setupFailed then (false, m)
  else
    match m.conns.find? (fun c => decide (c.deviceId = deviceId)) with
    | none => (false, m)
    | some c =>
      if c.state = ConnState.connected then
        match encodeMessage c.maxPayload message destination with
        | none => (false, m)
        | some _ =>
          if writeOk then (true, m)
          else
            (false,
             { m with
                 conns := m.conns.filter (fun d => decide (d.deviceId ≠ deviceId)),
                 closes := m.closes + 1 })
      else (false, m)

/-- Modelled from the spec: lora_comms_get_nodes (section 4.1), absent from
the repository sources.  It returns a snapshot of the Node Registry of the
connection, and an empty collection when the device is unknown or not
connected, never an error. -/
def Manager.getNodes (m : Manager) (deviceId : Bytes) : List NodeDescriptor :=
  if m.setupFailed then []
  else
    match m.conns.find? (fun c => decide (c.deviceId = deviceId)) with
    | none => []
    | some c => if c.state = ConnState.connected then c.registry else []

/-- Modelled from the spec: lora_comms_scan_devices (section 4.1), absent
from the repository sources.  The backend enumeration result is a
test-double parameter; scanning has no effect on connection state. -/
def Manager.scanDevices (m : Manager) (backends : List DeviceDescriptor) :
    List DeviceDescriptor :=
  if m.setupFailed then [] else backends

/-- Modelled from the spec: lora_comms_cleanup (section 4.1), absent from
the repository sources.  It tears down every owned connection, closing the
transport of each connected one, and releases the connection table;
calling it again adds no further effect. -/
def Manager.cleanup (m : Manager) : Manager :=
  { m with conns := [], closes := m.closes + connectedCount m.conns }

/-- Modelled from the spec: the inbound path of the Connection Manager
(section 4.2), absent from the repository sources.  Inbound bytes are
appended to the buffer, complete frames are decoded, the decoded events are
applied to the Node Registry, and the incomplete tail stays buffered;
malformed frames are discarded and never touch the connection state. -/
def processInbound (c : Connection) (bytes : Bytes) : Connection :=
  let res := decodeEvents (c.buffer ++ bytes)
  { c with registry := res.1.foldl applyEvent c.registry, buffer := res.2 }

/-- Resource invariant of the manager: every open of the test-double
transport is balanced by a close or by a live connected connection, device
ids and paths are duplicate-free, and each device id derives from its path. -/
def Manager.Inv (m : Manager) : Prop :=
  m.opens = m.closes + connectedCount m.conns ∧
  (m.conns.map (fun c => c.deviceId)).Nodup ∧
  (m.conns.map (fun c => c.path)).Nodup ∧
  ∀ c ∈ m.conns, c.deviceId = deviceIdFor c.path

/-- The boundary handle: LoraManagerPtr is a possibly null pointer, embedded
as an optional manager state. -/
abbrev LoraManagerPtr := Option Manager

/-- Boundary wrapper for lora_comms_init: always returns a non-null
handle. -/
def lora_comms_init (setupOk : Bool) : LoraManagerPtr :=
  some (Manager.init setupOk)

/-- Boundary wrapper for lora_comms_cleanup: a null handle is a no-op. -/
def lora_comms_cleanup : LoraManagerPtr → LoraManagerPtr
  | none => none
  | some m => some m.cleanup

/-- Boundary wrapper for lora_comms_scan_devices: a null handle yields an
array with count zero. -/
def lora_comms_scan_devices (h : LoraManagerPtr) (backends : List DeviceDescriptor) :
    List DeviceDescriptor :=
  match h with
  | none => []
  | some m => m.scanDevices backends

/-- Boundary wrapper for lora_comms_connect_device: a null handle yields a
null device id. -/
def lora_comms_connect_device (h : LoraManagerPtr) (path : Bytes) (deviceType : Nat)
    (openOk handshakeOk : Bool) (maxPayload : Nat) : Option Bytes × LoraManagerPtr :=
  match h with
  | none => (none, none)
  | some m =>
    let r := m.connectDevice path deviceType openOk handshakeOk maxPayload
    (r.1, some r.2)

/-- Boundary wrapper for lora_comms_send_message: a null handle yields
false. -/
def lora_comms_send_message (h : LoraManagerPtr) (deviceId message destination : Bytes)
    (writeOk : Bool) : Bool × LoraManagerPtr :=
  match h with
  | none => (false, none)
  | some m =>
    let r := m.sendMessage deviceId message destination writeOk
    (r.1, some r.2)

/-- Boundary wrapper for lora_comms_get_nodes: a null handle yields an array
with count zero. -/
def lora_comms_get_nodes (h : LoraManagerPtr) (deviceId : Bytes) : List NodeDescriptor :=
  match h with
  | none => []
  | some m => m.getNodes deviceId

/-! Helper lemmas. -/

lemma encodeMessage_eq_some (maxPayload : Nat) (message destination wire : Bytes)
    (h : encodeMessage maxPayload message destination = some wire) :
    wire = (MSG_TAG :: destination.length :: (destination ++ message)).length ::
      MSG_TAG :: destination.length :: (destination ++ message) := by
  simp only [encodeMessage] at h
  split at h
  · split at h
    · exact ((Option.some.injEq _ _).mp h).symm
    · exact absurd h (by simp)
  · exact absurd h (by simp)

lemma encodeMessage_none_of_long (maxPayload : Nat) (message destination : Bytes)
    (h : maxPayload < message.length) :
    encodeMessage maxPayload message destination = none := by
  unfold encodeMessage
  rw [if_neg (by omega)]

/-- Theorem for claim C1: for every message and destination accepted by the
encoder, decoding the produced frame on a loopback transport yields the
original pair of message and destination unchanged. -/
theorem encode_decode_roundtrip (maxPayload : Nat) (message destination wire : Bytes)
    (h : encodeMessage maxPayload message destination = some wire) :
    decodeMessageFrame wire = some (message, destination) := by
  rw [encodeMessage_eq_some maxPayload message destination wire h]
  have hd : destination.length ≤ (destination ++ message).length := by simp
  simp [decodeMessageFrame, hd, List.take_left, List.drop_left]

/-- Witness for claim C1 at a concrete input. -/
theorem encode_decode_roundtrip_witness :
    decodeMessageFrame [5, 1, 1, 9, 7, 8] = some ([7, 8], [9]) :=
  encode_decode_roundtrip 5 [7, 8] [9] [5, 1, 1, 9, 7, 8] (by decide)

/-- Theorem for claim C3: connect_device is idempotent on an already
connected device; with the device at the path already connected, the call
returns the existing device id and leaves the manager, in particular its
transport open counter, unchanged, so no second transport is opened. -/
theorem connect_device_idempotent (m : Manager) (path : Bytes) (c : Connection)
    (deviceType : Nat) (openOk handshakeOk : Bool) (maxPayload : Nat)
    (hok : m.setupFailed = false)
    (hfind : m.conns.find? (fun d => decide (d.path = path)) = some c)
    (hconn : c.state = ConnState.connected) :
    m.connectDevice path deviceType openOk handshakeOk maxPayload = (some c.deviceId, m) := by
  unfold Manager.connectDevice
  rw [hok]
  simp [hfind, hconn]

/-- Witness for claim C3 at a concrete manager holding one connected
device. -/
theorem connect_device_idempotent_witness :
    (Manager.mk false [⟨[100, 7], [7], 0, 200, ConnState.connected, [], []⟩] 1 0).connectDevice
      [7] 0 true true 200 =
      (some [100, 7], Manager.mk false [⟨[100, 7], [7], 0, 200, ConnState.connected, [], []⟩] 1 0) :=
  connect_device_idempotent _ [7] ⟨[100, 7], [7], 0, 200, ConnState.connected, [], []⟩ 0 true true 200
    (by decide) (by decide) (by decide)

/-- Theorem for claim C4: send_message reports failure by returning false
whenever the connection for the device id does not exist, is not in the
connected state, or the transport write fails; being a total function of the
embedded state, it cannot crash on an unknown device id. -/
theorem send_message_reports_failure (m : Manager) (deviceId message destination : Bytes)
    (writeOk : Bool)
    (h : m.findConn deviceId = none ∨
      (∃ c, m.findConn deviceId = some c ∧ c.state ≠ ConnState.connected) ∨
      writeOk = false) :
    (m.sendMessage deviceId message destination writeOk).1 = false := by
  unfold Manager.sendMessage
  rcases h with h | ⟨c, hc, hs⟩ | h
  · unfold Manager.findConn at h
    cases hb : m.setupFailed <;> simp [hb, h]
  · unfold Manager.findConn at hc
    cases hb : m.setupFailed <;> simp [hb, hc, hs]
  · subst h
    cases hb : m.setupFailed
    · cases hf : m.conns.find? (fun c => decide (c.deviceId = deviceId)) with
      | none => simp [hf]
      | some c =>
        by_cases hs : c.state = ConnState.connected
        · cases he : encodeMessage c.maxPayload message destination with
          | none => simp [hf, hs, he]
          | some w => simp [hf, hs, he]
        · simp [hf, hs]
    · simp

/-- Witness for claim C4 on a freshly initialized manager and an unknown
device id. -/
theorem send_message_reports_failure_witness :
    ((Manager.init true).sendMessage [1] [2] [3] true).1 = false :=
  send_message_reports_failure (Manager.init true) [1] [2] [3] true (Or.inl (by decide))

/-- Theorem for claim C5: get_nodes on a device id that is unknown, never
connected, or whose connection is not in the connected state returns the
empty collection; being a total function of the embedded state it signals no
error. -/
theorem get_nodes_empty_when_unknown (m : Manager) (deviceId : Bytes)
    (h : m.findConn deviceId = none ∨
      (∃ c, m.findConn deviceId = some c ∧ c.state ≠ ConnState.connected)) :
    m.getNodes deviceId = [] := by
  unfold Manager.getNodes
  rcases h with h | ⟨c, hc, hs⟩
  · unfold Manager.findConn at h
    cases hb : m.setupFailed <;> simp [hb, h]
  · unfold Manager.findConn at hc
    cases hb : m.setupFailed <;> simp [hb, hc, hs]

/-- Witness for claim C5 on a freshly initialized manager and a never
connected device id. -/
theorem get_nodes_empty_when_unknown_witness :
    (Manager.init true).getNodes [1] = [] :=
  get_nodes_empty_when_unknown (Manager.init true) [1] (Or.inl (by decide))

/-- Theorem for claim C7: the encoder fails on any message strictly longer
than the device maximum payload size, and consequently send_message returns
false for such a message instead of transmitting a truncated frame. -/
theorem oversize_message_never_truncated :
    (∀ maxPayload (message destination : Bytes), maxPayload < message.length →
      encodeMessage maxPayload message destination = none) ∧
    (∀ (m : Manager) (deviceId message destination : Bytes) (writeOk : Bool) (c : Connection),
      m.findConn deviceId = some c → c.maxPayload < message.length →
      (m.sendMessage deviceId message destination writeOk).1 = false) := by
  refine ⟨fun mp msg dst h => encodeMessage_none_of_long mp msg dst h, ?_⟩
  intro m deviceId message destination writeOk c hc hlen
  unfold Manager.sendMessage
  unfold Manager.findConn at hc
  have henc := encodeMessage_none_of_long c.maxPayload message destination hlen
  cases hb : m.setupFailed
  · by_cases hs : c.state = ConnState.connected
    · simp [hc, hs, henc]
    · simp [hc, hs]
  · simp

/-- Witness for claim C7: a three byte message against a payload limit of
two fails to encode and fails to send. -/
theorem oversize_message_never_truncated_witness :
    encodeMessage 2 [1, 2, 3] [9] = none ∧
    ((Manager.mk false [⟨[100, 7], [7], 0, 2, ConnState.connected, [], []⟩] 1 0).sendMessage
      [100, 7] [1, 2, 3] [9] true).1 = false :=
  ⟨oversize_message_never_truncated.1 2 [1, 2, 3] [9] (by decide),
   oversize_message_never_truncated.2
     (Manager.mk false [⟨[100, 7], [7], 0, 2, ConnState.connected, [], []⟩] 1 0)
     [100, 7] [1, 2, 3] [9] true ⟨[100, 7], [7], 0, 2, ConnState.connected, [], []⟩
     (by decide) (by decide)⟩

/-- Theorem for claim C9: init always returns a non-null handle, and when
internal setup cannot proceed the returned handle is marked failed and every
subsequent operation reports failure through its sentinel instead of init
failing at construction. -/
theorem init_never_fails :
    (∀ setupOk : Bool, (lora_comms_init setupOk).isSome = true) ∧
    (Manager.init false).setupFailed = true ∧
    (∀ deviceId message destination writeOk,
      ((Manager.init false).sendMessage deviceId message destination writeOk).1 = false) ∧
    (∀ path deviceType openOk handshakeOk maxPayload,
      ((Manager.init false).connectDevice path deviceType openOk handshakeOk maxPayload).1 = none) ∧
    (∀ deviceId, (Manager.init false).getNodes deviceId = []) ∧
    (∀ backends, (Manager.init false).scanDevices backends = []) := by
  refine ⟨fun _ => rfl, rfl, fun _ _ _ _ => rfl, fun _ _ _ _ _ => rfl, fun _ => rfl, fun _ => rfl⟩

/-- Theorem for claim C10: every boundary operation taking a manager handle
returns its failure sentinel on a null handle: cleanup is a no-op,
scan_devices and get_nodes yield a collection with count zero,
connect_device yields a null device id, and send_message yields false. -/
theorem null_handle_returns_sentinels :
    lora_comms_cleanup none = none ∧
    (∀ backends, lora_comms_scan_devices none backends = []) ∧
    (∀ path deviceType openOk handshakeOk maxPayload,
      lora_comms_connect_device none path deviceType openOk handshakeOk maxPayload =
        (none, none)) ∧
    (∀ deviceId message destination writeOk,
      lora_comms_send_message none deviceId message destination writeOk = (false, none)) ∧
    (∀ deviceId, lora_comms_get_nodes none deviceId = []) := by
  refine ⟨rfl, fun _ => rfl, fun _ _ _ _ _ => rfl, fun _ _ _ _ => rfl, fun _ => rfl⟩

/-! Decoder behavior on whole frames. -/

lemma decodeEvents_frame (body rest : Bytes) :
    decodeEvents (body.length :: (body ++ rest)) =
      match parseBody body with
      | some ev => (ev :: (decodeEvents rest).1, (decodeEvents rest).2)
      | none => decodeEvents rest := by
  rw [decodeEvents]
  rw [dif_pos (by simp)]
  rw [List.take_left, List.drop_left]

/-- Theorem for claim C8: the inbound path never changes the connection
state, so a malformed frame cannot move a connection to a failed or
disconnected state; moreover the decoder drops exactly the malformed frame
from the byte stream, decoding the remaining bytes as if the malformed frame
were absent, while a well formed frame contributes exactly its event. -/
theorem malformed_frames_preserve_connection :
    (∀ (c : Connection) (bytes : Bytes), (processInbound c bytes).state = c.state) ∧
    (∀ body rest, parseBody body = none →
      decodeEvents (body.length :: (body ++ rest)) = decodeEvents rest) ∧
    (∀ body rest ev, parseBody body = some ev →
      decodeEvents (body.length :: (body ++ rest)) =
        (ev :: (decodeEvents rest).1, (decodeEvents rest).2)) := by
  refine ⟨fun c bytes => rfl, ?_, ?_⟩
  · intro body rest h
    rw [decodeEvents_frame, h]
  · intro body rest ev h
    rw [decodeEvents_frame, h]

/-- Witness for claim C8: a malformed two byte frame with unknown tag nine
is discarded, and a well formed departure frame yields its event. -/
theorem malformed_frames_preserve_connection_witness :
    decodeEvents [2, 9, 9, 3, 1, 7] = decodeEvents [3, 1, 7] ∧
    decodeEvents [2, 3, 7] =
      (ProtocolEvent.nodeDeparture [7] :: (decodeEvents []).1, (decodeEvents []).2) :=
  ⟨malformed_frames_preserve_connection.2.1 [9, 9] [3, 1, 7] (by decide),
   malformed_frames_preserve_connection.2.2 [3, 7] [] (ProtocolEvent.nodeDeparture [7])
     (by decide)⟩

/-! Resource accounting for the test-double transport. -/

lemma connectedCount_nil : connectedCount [] = 0 := rfl

lemma connectedCount_cons (c : Connection) (t : List Connection) :
    connectedCount (c :: t) =
      (if c.state = ConnState.connected then 1 else 0) + connectedCount t := by
  by_cases h : c.state = ConnState.connected <;>
    simp [connectedCount, List.filter_cons, h, Nat.add_comm]

lemma connectedCount_append (l₁ l₂ : List Connection) :
    connectedCount (l₁ ++ l₂) = connectedCount l₁ + connectedCount l₂ := by
  simp [connectedCount, List.filter_append]

/-- Theorem for claim C6: cleanup is idempotent, leaves no owned connection
behind, and under the resource invariant the transport close counter equals
the open counter afterwards, so no transport is left dangling open. -/
theorem cleanup_idempotent_and_balanced (m : Manager) (hInv : m.Inv) :
    m.cleanup.cleanup = m.cleanup ∧
    m.cleanup.conns = [] ∧
    m.cleanup.closes = m.cleanup.opens ∧
    m.cleanup.opens = m.opens := by
  refine ⟨?_, rfl, ?_, rfl⟩
  · simp [Manager.cleanup, connectedCount]
  · obtain ⟨h1, _⟩ := hInv
    simp [Manager.cleanup, h1]

/-- Witness for claim C6 at a concrete manager owning one connected device
with one recorded transport open. -/
theorem cleanup_idempotent_and_balanced_witness :
    (Manager.mk false [⟨[100, 7], [7], 0, 200, ConnState.connected, [], []⟩] 1 0).cleanup.cleanup =
        (Manager.mk false [⟨[100, 7], [7], 0, 200, ConnState.connected, [], []⟩] 1 0).cleanup ∧
      (Manager.mk false [⟨[100, 7], [7], 0, 200, ConnState.connected, [], []⟩] 1 0).cleanup.conns =
        [] ∧
      (Manager.mk false [⟨[100, 7], [7], 0, 200, ConnState.connected, [], []⟩] 1 0).cleanup.closes =
        (Manager.mk false [⟨[100, 7], [7], 0, 200, ConnState.connected, [], []⟩] 1 0).cleanup.opens ∧
      (Manager.mk false [⟨[100, 7], [7], 0, 200, ConnState.connected, [], []⟩] 1 0).cleanup.opens =
        (Manager.mk false [⟨[100, 7], [7], 0, 200, ConnState.connected, [], []⟩] 1 0).opens :=
  cleanup_idempotent_and_balanced
    (Manager.mk false [⟨[100, 7], [7], 0, 200, ConnState.connected, [], []⟩] 1 0)
    (by unfold Manager.Inv; decide)

/-! Node Registry convergence. -/

lemma lastAnnouncementFor_append (id : Bytes) (l₁ l₂ : List ProtocolEvent) :
    lastAnnouncementFor id (l₁ ++ l₂) =
      (lastAnnouncementFor id l₂).or (lastAnnouncementFor id l₁) := by
  induction l₁ with
  | nil => simp [lastAnnouncementFor]
  | cons ev rest ih =>
    simp only [List.cons_append, lastAnnouncementFor, List.append_eq, ih, Option.or_assoc]

lemma onlineAfter_append (id : Bytes) (l₁ l₂ : List ProtocolEvent) :
    onlineAfter id (l₁ ++ l₂) = (onlineAfter id l₂).or (onlineAfter id l₁) := by
  induction l₁ with
  | nil => simp [onlineAfter]
  | cons ev rest ih =>
    simp only [List.cons_append, onlineAfter, List.append_eq, ih, Option.or_assoc]

lemma specEntry_append_ann (evs : List ProtocolEvent) (n : NodeDescriptor) (id : Bytes) :
    specEntry (evs ++ [ProtocolEvent.nodeAnnouncement n]) id =
      if n.id = id then some { n with is_online := true } else specEntry evs id := by
  unfold specEntry
  rw [lastAnnouncementFor_append, onlineAfter_append]
  by_cases hn : n.id = id
  · simp [lastAnnouncementFor, onlineAfter, announceValue, onlineValue, hn]
  · simp [lastAnnouncementFor, onlineAfter, announceValue, onlineValue, hn]

lemma specEntry_append_dep (evs : List ProtocolEvent) (j : Bytes) (id : Bytes) :
    specEntry (evs ++ [ProtocolEvent.nodeDeparture j]) id =
      if j = id then (specEntry evs id).map (fun m => { m with is_online := false })
      else specEntry evs id := by
  unfold specEntry
  rw [lastAnnouncementFor_append, onlineAfter_append]
  by_cases hj : j = id
  · simp only [lastAnnouncementFor, onlineAfter, announceValue, onlineValue, hj, if_pos rfl,
      Option.none_or, Option.or_some, if_pos rfl]
    cases lastAnnouncementFor id evs <;> simp
  · simp [lastAnnouncementFor, onlineAfter, announceValue, onlineValue, hj]

lemma specEntry_append_ack (evs : List ProtocolEvent) (i : Bytes) (id : Bytes) :
    specEntry (evs ++ [ProtocolEvent.messageAck i]) id = specEntry evs id := by
  unfold specEntry
  rw [lastAnnouncementFor_append, onlineAfter_append]
  simp [lastAnnouncementFor, onlineAfter, announceValue, onlineValue]

lemma specEntry_append_status (evs : List ProtocolEvent) (id : Bytes) :
    specEntry (evs ++ [ProtocolEvent.statusUpdate]) id = specEntry evs id := by
  unfold specEntry
  rw [lastAnnouncementFor_append, onlineAfter_append]
  simp [lastAnnouncementFor, onlineAfter, announceValue, onlineValue]

lemma lookupNode_applyEvent_ann (reg : List NodeDescriptor) (n : NodeDescriptor) (id : Bytes) :
    lookupNode (applyEvent reg (ProtocolEvent.nodeAnnouncement n)) id =
      if n.id = id then some { n with is_online := true } else lookupNode reg id := by
  show lookupNode
      (if reg.any (fun m => decide (m.id = n.id)) then
        reg.map (fun m => if m.id = n.id then { n with is_online := true } else m)
      else reg ++ [{ n with is_online := true }]) id = _
  by_cases hid : n.id = id
  · subst hid
    rw [if_pos rfl]
    by_cases hany : reg.any (fun m => decide (m.id = n.id)) = true
    · rw [if_pos hany]
      unfold lookupNode
      rw [List.find?_map]
      have hpf : ((fun m : NodeDescriptor => decide (m.id = n.id)) ∘
          (fun m => if m.id = n.id then { n with is_online := true } else m)) =
          (fun m : NodeDescriptor => decide (m.id = n.id)) := by
        funext m
        by_cases hm : m.id = n.id <;> simp [hm]
      rw [hpf]
      cases hf : reg.find? (fun m => decide (m.id = n.id)) with
      | none =>
        rw [List.find?_eq_none] at hf
        obtain ⟨m₀, hm₀, hp⟩ := List.any_eq_true.mp hany
        exact absurd hp (hf m₀ hm₀)
      | some m₁ =>
        have hm₁ : m₁.id = n.id := by simpa using List.find?_some hf
        simp [hm₁]
    · rw [if_neg hany]
      unfold lookupNode
      rw [List.find?_append]
      have hnone : reg.find? (fun m => decide (m.id = n.id)) = none := by
        rw [List.find?_eq_none]
        intro m hm hp
        exact hany (List.any_eq_true.mpr ⟨m, hm, hp⟩)
      rw [hnone]
      simp
  · rw [if_neg hid]
    by_cases hany : reg.any (fun m => decide (m.id = n.id)) = true
    · rw [if_pos hany]
      unfold lookupNode
      rw [List.find?_map]
      have hpf : ((fun m : NodeDescriptor => decide (m.id = id)) ∘
          (fun m => if m.id = n.id then { n with is_online := true } else m)) =
          (fun m : NodeDescriptor => decide (m.id = id)) := by
        funext m
        by_cases hm : m.id = n.id <;> simp [hm, hid]
      rw [hpf]
      cases hf : reg.find? (fun m => decide (m.id = id)) with
      | none => simp
      | some m₁ =>
        have hm₁ : m₁.id = id := by simpa using List.find?_some hf
        have hne : ¬ m₁.id = n.id := by rw [hm₁]; exact fun h => hid h.symm
        simp [hne]
    · rw [if_neg hany]
      unfold lookupNode
      rw [List.find?_append]
      have h1 : [{ n with is_online := true }].find? (fun m => decide (m.id = id)) = none := by
        simp [hid]
      rw [h1]
      simp

lemma lookupNode_applyEvent_dep (reg : List NodeDescriptor) (j : Bytes) (id : Bytes) :
    lookupNode (applyEvent reg (ProtocolEvent.nodeDeparture j)) id =
      if j = id then (lookupNode reg id).map (fun m => { m with is_online := false })
      else lookupNode reg id := by
  show lookupNode (reg.map (fun m => if m.id = j then { m with is_online := false } else m)) id = _
  unfold lookupNode
  rw [List.find?_map]
  have hpf : ((fun m : NodeDescriptor => decide (m.id = id)) ∘
      (fun m => if m.id = j then { m with is_online := false } else m)) =
      (fun m : NodeDescriptor => decide (m.id = id)) := by
    funext m
    by_cases hm : m.id = j <;> simp [hm]
  rw [hpf]
  by_cases hj : j = id
  · subst hj
    rw [if_pos rfl]
    cases hf : reg.find? (fun m => decide (m.id = j)) with
    | none => simp
    | some m₁ =>
      have hm₁ : m₁.id = j := by simpa using List.find?_some hf
      simp [hm₁]
  · rw [if_neg hj]
    cases hf : reg.find? (fun m => decide (m.id = id)) with
    | none => simp
    | some m₁ =>
      have hm₁ : m₁.id = id := by simpa using List.find?_some hf
      have hne : ¬ m₁.id = j := by rw [hm₁]; exact fun h => hj h.symm
      simp [hne]

lemma applyEvents_append (evs : List ProtocolEvent) (e : ProtocolEvent) :
    applyEvents (evs ++ [e]) = applyEvent (applyEvents evs) e := by
  simp [applyEvents, List.foldl_append]

lemma applyEvent_ids_nodup (reg : List NodeDescriptor) (ev : ProtocolEvent)
    (h : (reg.map (fun n => n.id)).Nodup) :
    ((applyEvent reg ev).map (fun n => n.id)).Nodup := by
  cases ev with
  | nodeAnnouncement n =>
    by_cases hany : reg.any (fun m => decide (m.id = n.id)) = true
    · simp only [applyEvent, if_pos hany]
      rw [List.map_map]
      have hcomp : ((fun m : NodeDescriptor => m.id) ∘
          (fun m => if m.id = n.id then { n with is_online := true } else m)) =
          (fun m : NodeDescriptor => m.id) := by
        funext m
        by_cases hm : m.id = n.id <;> simp [hm]
      rw [hcomp]
      exact h
    · simp only [applyEvent, if_neg hany]
      rw [List.map_append]
      simp only [List.map_cons, List.map_nil]
      rw [List.nodup_append]
      refine ⟨h, List.nodup_singleton _, ?_⟩
      intro a ha hb
      rw [List.mem_singleton] at hb
      subst hb
      obtain ⟨m, hm, hid⟩ := List.mem_map.mp ha
      exact hany (List.any_eq_true.mpr ⟨m, hm, by simp [hid]⟩)
  | nodeDeparture j =>
    simp only [applyEvent]
    rw [List.map_map]
    have hcomp : ((fun m : NodeDescriptor => m.id) ∘
        (fun m => if m.id = j then { m with is_online := false } else m)) =
        (fun m : NodeDescriptor => m.id) := by
      funext m
      by_cases hm : m.id = j <;> simp [hm]
    rw [hcomp]
    exact h
  | messageAck i => exact h
  | statusUpdate => exact h

/-- Theorem for claim C2 as amended: after any finite sequence of decoded
events applied to an initially empty Node Registry, the snapshot holds
exactly one entry per node id that was ever announced (ids are
duplicate-free, and the lookup is some exactly when a last announcement
exists), that entry carries the fields of the last announcement for the id
with is_online true when the last announcement or departure event for the id
is an announcement and false when it is a departure, and a departure never
removes an entry (it preserves the id set of the registry). -/
theorem node_registry_convergence (evs : List ProtocolEvent) :
    (∀ id, lookupNode (applyEvents evs) id = specEntry evs id) ∧
    ((applyEvents evs).map (fun n => n.id)).Nodup ∧
    (∀ (reg : List NodeDescriptor) (j : Bytes),
      (applyEvent reg (ProtocolEvent.nodeDeparture j)).map (fun n => n.id) =
        reg.map (fun n => n.id)) := by
  refine ⟨?_, ?_, ?_⟩
  · intro id
    induction evs using List.reverseRecOn with
    | nil => rfl
    | append_singleton evs e ih =>
      rw [applyEvents_append]
      cases e with
      | nodeAnnouncement n => rw [lookupNode_applyEvent_ann, specEntry_append_ann, ih]
      | nodeDeparture j => rw [lookupNode_applyEvent_dep, specEntry_append_dep, ih]
      | messageAck i =>
        rw [specEntry_append_ack, ← ih]
        rfl
      | statusUpdate =>
        rw [specEntry_append_status, ← ih]
        rfl
  · induction evs using List.reverseRecOn with
    | nil => simp [applyEvents]
    | append_singleton evs e ih =>
      rw [applyEvents_append]
      exact applyEvent_ids_nodup _ e ih
  · intro reg j
    simp only [applyEvent]
    rw [List.map_map]
    have hcomp : ((fun m : NodeDescriptor => m.id) ∘
        (fun m => if m.id = j then { m with is_online := false } else m)) =
        (fun m : NodeDescriptor => m.id) := by
      funext m
      by_cases hm : m.id = j <;> simp [hm]
    rw [hcomp]

/-- Counterexample for claim C2 as stated: a departure event for a node id
that was never announced makes that id appear in the event sequence, yet the
final snapshot holds no entry at all for it, because a departure only marks
an existing descriptor offline and the registry has none to retain. -/
theorem departure_only_id_has_no_entry :
    ([1] : Bytes) ∈ appearedIds [ProtocolEvent.nodeDeparture [1]] ∧
    applyEvents [ProtocolEvent.nodeDeparture [1]] = [] := by
  constructor
  · simp [appearedIds]
  · rfl

/-! Preservation of the resource invariant by every operation, so the
hypothesis of the cleanup theorem holds in every reachable manager state. -/

lemma deviceIdFor_injective (p q : Bytes) (h : deviceIdFor p = deviceIdFor q) : p = q := by
  simpa [deviceIdFor] using h

lemma connectedCount_filter_deviceId :
    ∀ (l : List Connection) (k : Bytes) (c : Connection),
      (l.map (fun d => d.deviceId)).Nodup →
      l.find? (fun d => decide (d.deviceId = k)) = some c →
      connectedCount l =
        connectedCount (l.filter (fun d => decide (d.deviceId ≠ k))) +
          (if c.state = ConnState.connected then 1 else 0) := by
  intro l
  induction l with
  | nil => intro k c _ hf; simp at hf
  | cons d t ih =>
    intro k c hnd hf
    rw [List.map_cons, List.nodup_cons] at hnd
    obtain ⟨hdnot, hndt⟩ := hnd
    by_cases hd : d.deviceId = k
    · have hc : c = d := by
        rw [List.find?_cons_of_pos _ (by simp [hd])] at hf
        exact ((Option.some.injEq _ _).mp hf).symm
      subst hc
      have hfilter : t.filter (fun e => decide (e.deviceId ≠ k)) = t := by
        rw [List.filter_eq_self]
        intro e he
        simp only [decide_eq_true_eq]
        intro heq
        exact hdnot (by rw [hd, ← heq]; exact List.mem_map_of_mem (fun d => d.deviceId) he)
      rw [List.filter_cons, if_neg (by simp [hd]), hfilter, connectedCount_cons]
      exact Nat.add_comm _ _
    · rw [List.find?_cons_of_neg _ (by simp [hd])] at hf
      have hrec := ih k c hndt hf
      rw [List.filter_cons, if_pos (by simp [hd]), connectedCount_cons, connectedCount_cons,
        hrec, Nat.add_assoc]

lemma connectedCount_filter_path :
    ∀ (l : List Connection) (k : Bytes) (c : Connection),
      (l.map (fun d => d.path)).Nodup →
      l.find? (fun d => decide (d.path = k)) = some c →
      connectedCount l =
        connectedCount (l.filter (fun d => decide (d.path ≠ k))) +
          (if c.state = ConnState.connected then 1 else 0) := by
  intro l
  induction l with
  | nil => intro k c _ hf; simp at hf
  | cons d t ih =>
    intro k c hnd hf
    rw [List.map_cons, List.nodup_cons] at hnd
    obtain ⟨hdnot, hndt⟩ := hnd
    by_cases hd : d.path = k
    · have hc : c = d := by
        rw [List.find?_cons_of_pos _ (by simp [hd])] at hf
        exact ((Option.some.injEq _ _).mp hf).symm
      subst hc
      have hfilter : t.filter (fun e => decide (e.path ≠ k)) = t := by
        rw [List.filter_eq_self]
        intro e he
        simp only [decide_eq_true_eq]
        intro heq
        exact hdnot (by rw [hd, ← heq]; exact List.mem_map_of_mem (fun d => d.path) he)
      rw [List.filter_cons, if_neg (by simp [hd]), hfilter, connectedCount_cons]
      exact Nat.add_comm _ _
    · rw [List.find?_cons_of_neg _ (by simp [hd])] at hf
      have hrec := ih k c hndt hf
      rw [List.filter_cons, if_pos (by simp [hd]), connectedCount_cons, connectedCount_cons,
        hrec, Nat.add_assoc]

lemma inv_init (setupOk : Bool) : (Manager.init setupOk).Inv := by
  refine ⟨rfl, ?_, ?_, ?_⟩ <;> simp [Manager.init]

lemma inv_cleanup (m : Manager) (h : m.Inv) : m.cleanup.Inv := by
  obtain ⟨h1, _, _, _⟩ := h
  refine ⟨?_, by simp [Manager.cleanup], by simp [Manager.cleanup], by simp [Manager.cleanup]⟩
  show m.opens = m.closes + connectedCount m.conns + connectedCount []
  rw [connectedCount_nil]
  omega

lemma inv_sendMessage (m : Manager) (deviceId message destination : Bytes) (writeOk : Bool)
    (h : m.Inv) : (m.sendMessage deviceId message destination writeOk).2.Inv := by
  obtain ⟨h1, h2, h3, h4⟩ := h
  cases hb : m.setupFailed
  · cases hf : m.conns.find? (fun c => decide (c.deviceId = deviceId)) with
    | none =>
      have hred : (m.sendMessage deviceId message destination writeOk).2 = m := by
        simp [Manager.sendMessage, hb, hf]
      rw [hred]
      exact ⟨h1, h2, h3, h4⟩
    | some c =>
      by_cases hs : c.state = ConnState.connected
      · cases he : encodeMessage c.maxPayload message destination with
        | none =>
          have hred : (m.sendMessage deviceId message destination writeOk).2 = m := by
            simp [Manager.sendMessage, hb, hf, hs, he]
          rw [hred]
          exact ⟨h1, h2, h3, h4⟩
        | some w =>
          cases writeOk with
          | true =>
            have hred : (m.sendMessage deviceId message destination true).2 = m := by
              simp [Manager.sendMessage, hb, hf, hs, he]
            rw [hred]
            exact ⟨h1, h2, h3, h4⟩
          | false =>
            have hred : (m.sendMessage deviceId message destination false).2 =
                { m with
                    conns := m.conns.filter (fun d => decide (d.deviceId ≠ deviceId)),
                    closes := m.closes + 1 } := by
              simp [Manager.sendMessage, hb, hf, hs, he]
            rw [hred]
            have hcc := connectedCount_filter_deviceId m.conns deviceId c h2 hf
            rw [if_pos hs] at hcc
            refine ⟨?_, ?_, ?_, ?_⟩
            · show m.opens = m.closes + 1 +
                connectedCount (m.conns.filter (fun d => decide (d.deviceId ≠ deviceId)))
              omega
            · exact List.Nodup.sublist (List.Sublist.map _ (List.filter_sublist _)) h2
            · exact List.Nodup.sublist (List.Sublist.map _ (List.filter_sublist _)) h3
            · intro d hd
              exact h4 d (List.mem_of_mem_filter hd)
      · have hred : (m.sendMessage deviceId message destination writeOk).2 = m := by
          simp [Manager.sendMessage, hb, hf, hs]
        rw [hred]
        exact ⟨h1, h2, h3, h4⟩
  · have hred : (m.sendMessage deviceId message destination writeOk).2 = m := by
      simp [Manager.sendMessage, hb]
    rw [hred]
    exact ⟨h1, h2, h3, h4⟩

lemma inv_connectFresh (m : Manager) (path : Bytes) (deviceType : Nat)
    (openOk handshakeOk : Bool) (maxPayload : Nat)
    (h : m.Inv)
    (hcc : connectedCount (m.conns.filter (fun c => decide (c.path ≠ path))) =
      connectedCount m.conns) :
    (m.connectFresh path deviceType openOk handshakeOk maxPayload).2.Inv := by
  obtain ⟨h1, h2, h3, h4⟩ := h
  have hrd : ((m.conns.filter (fun c => decide (c.path ≠ path))).map
      (fun c => c.deviceId)).Nodup :=
    List.Nodup.sublist (List.Sublist.map _ (List.filter_sublist _)) h2
  have hrp : ((m.conns.filter (fun c => decide (c.path ≠ path))).map (fun c => c.path)).Nodup :=
    List.Nodup.sublist (List.Sublist.map _ (List.filter_sublist _)) h3
  have hne : ∀ d ∈ m.conns.filter (fun c => decide (c.path ≠ path)), d.path ≠ path :=
    fun d hd => by simpa using List.of_mem_filter hd
  have hid4 : ∀ d ∈ m.conns.filter (fun c => decide (c.path ≠ path)),
      d.deviceId = deviceIdFor d.path :=
    fun d hd => h4 d (List.mem_of_mem_filter hd)
  have hnotid : deviceIdFor path ∉
      (m.conns.filter (fun c => decide (c.path ≠ path))).map (fun c => c.deviceId) := by
    intro hmem
    obtain ⟨d, hd, hdid⟩ := List.mem_map.mp hmem
    exact hne d hd (deviceIdFor_injective d.path path (by rw [← hid4 d hd, hdid]))
  have hnotp : path ∉ (m.conns.filter (fun c => decide (c.path ≠ path))).map (fun c => c.path) := by
    intro hmem
    obtain ⟨d, hd, hdp⟩ := List.mem_map.mp hmem
    exact hne d hd hdp
  cases openOk with
  | false =>
    have hred : (m.connectFresh path deviceType false handshakeOk maxPayload).2 =
        { m with conns := m.conns.filter (fun c => decide (c.path ≠ path)) } := by
      simp [Manager.connectFresh]
    rw [hred]
    refine ⟨?_, hrd, hrp, hid4⟩
    show m.opens = m.closes + connectedCount (m.conns.filter (fun c => decide (c.path ≠ path)))
    omega
  | true =>
    cases handshakeOk with
    | true =>
      have hred : (m.connectFresh path deviceType true true maxPayload).2 =
          { m with
              conns := m.conns.filter (fun c => decide (c.path ≠ path)) ++
                [⟨deviceIdFor path, path, deviceType, maxPayload, ConnState.connected, [], []⟩],
              opens := m.opens + 1 } := by
        simp [Manager.connectFresh]
      rw [hred]
      refine ⟨?_, ?_, ?_, ?_⟩
      · show m.opens + 1 = m.closes +
          connectedCount (m.conns.filter (fun c => decide (c.path ≠ path)) ++
            [(⟨deviceIdFor path, path, deviceType, maxPayload,
              ConnState.connected, [], []⟩ : Connection)])
        rw [connectedCount_append]
        have hone : connectedCount
            [(⟨deviceIdFor path, path, deviceType, maxPayload,
              ConnState.connected, [], []⟩ : Connection)] = 1 := rfl
        rw [hone]
        omega
      · show ((m.conns.filter (fun c => decide (c.path ≠ path)) ++
            [(⟨deviceIdFor path, path, deviceType, maxPayload,
              ConnState.connected, [], []⟩ : Connection)]).map (fun c => c.deviceId)).Nodup
        rw [List.map_append, List.map_cons, List.map_nil, List.nodup_append]
        refine ⟨hrd, List.nodup_singleton _, ?_⟩
        intro a ha hb
        rw [List.mem_singleton] at hb
        subst hb
        exact hnotid ha
      · show ((m.conns.filter (fun c => decide (c.path ≠ path)) ++
            [(⟨deviceIdFor path, path, deviceType, maxPayload,
              ConnState.connected, [], []⟩ : Connection)]).map (fun c => c.path)).Nodup
        rw [List.map_append, List.map_cons, List.map_nil, List.nodup_append]
        refine ⟨hrp, List.nodup_singleton _, ?_⟩
        intro a ha hb
        rw [List.mem_singleton] at hb
        subst hb
        exact hnotp ha
      · intro d hd
        rw [List.mem_append] at hd
        rcases hd with hd | hd
        · exact hid4 d hd
        · rw [List.mem_singleton] at hd
          subst hd
          rfl
    | false =>
      have hred : (m.connectFresh path deviceType true false maxPayload).2 =
          { m with
              conns := m.conns.filter (fun c => decide (c.path ≠ path)) ++
                [⟨deviceIdFor path, path, deviceType, maxPayload, ConnState.failed [], [], []⟩],
              opens := m.opens + 1,
              closes := m.closes + 1 } := by
        simp [Manager.connectFresh]
      rw [hred]
      refine ⟨?_, ?_, ?_, ?_⟩
      · show m.opens + 1 = m.closes + 1 +
          connectedCount (m.conns.filter (fun c => decide (c.path ≠ path)) ++
            [(⟨deviceIdFor path, path, deviceType, maxPayload,
              ConnState.failed [], [], []⟩ : Connection)])
        rw [connectedCount_append]
        have hzero : connectedCount
            [(⟨deviceIdFor path, path, deviceType, maxPayload,
              ConnState.failed [], [], []⟩ : Connection)] = 0 := rfl
        rw [hzero]
        omega
      · show ((m.conns.filter (fun c => decide (c.path ≠ path)) ++
            [(⟨deviceIdFor path, path, deviceType, maxPayload,
              ConnState.failed [], [], []⟩ : Connection)]).map (fun c => c.deviceId)).Nodup
        rw [List.map_append, List.map_cons, List.map_nil, List.nodup_append]
        refine ⟨hrd, List.nodup_singleton _, ?_⟩
        intro a ha hb
        rw [List.mem_singleton] at hb
        subst hb
        exact hnotid ha
      · show ((m.conns.filter (fun c => decide (c.path ≠ path)) ++
            [(⟨deviceIdFor path, path, deviceType, maxPayload,
              ConnState.failed [], [], []⟩ : Connection)]).map (fun c => c.path)).Nodup
        rw [List.map_append, List.map_cons, List.map_nil, List.nodup_append]
        refine ⟨hrp, List.nodup_singleton _, ?_⟩
        intro a ha hb
        rw [List.mem_singleton] at hb
        subst hb
        exact hnotp ha
      · intro d hd
        rw [List.mem_append] at hd
        rcases hd with hd | hd
        · exact hid4 d hd
        · rw [List.mem_singleton] at hd
          subst hd
          rfl

lemma inv_connectDevice (m : Manager) (path : Bytes) (deviceType : Nat)
    (openOk handshakeOk : Bool) (maxPayload : Nat) (h : m.Inv) :
    (m.connectDevice path deviceType openOk handshakeOk maxPayload).2.Inv := by
  cases hb : m.setupFailed
  · cases hf : m.conns.find? (fun c => decide (c.path = path)) with
    | none =>
      have hall : m.conns.filter (fun c => decide (c.path ≠ path)) = m.conns := by
        rw [List.filter_eq_self]
        intro c hc
        rw [List.find?_eq_none] at hf
        have hnp : ¬ c.path = path := by simpa using hf c hc
        simpa using hnp
      have hred : m.connectDevice path deviceType openOk handshakeOk maxPayload =
          m.connectFresh path deviceType openOk handshakeOk maxPayload := by
        simp [Manager.connectDevice, hb, hf]
      rw [hred]
      exact inv_connectFresh m path deviceType openOk handshakeOk maxPayload h (by rw [hall])
    | some c =>
      by_cases hs : c.state = ConnState.connected
      · have hred : (m.connectDevice path deviceType openOk handshakeOk maxPayload).2 = m := by
          simp [Manager.connectDevice, hb, hf, hs]
        rw [hred]
        exact h
      · have hred : m.connectDevice path deviceType openOk handshakeOk maxPayload =
            m.connectFresh path deviceType openOk handshakeOk maxPayload := by
          simp [Manager.connectDevice, hb, hf, hs]
        rw [hred]
        have hcc := connectedCount_filter_path m.conns path c h.2.2.1 hf
        rw [if_neg hs] at hcc
        exact inv_connectFresh m path deviceType openOk handshakeOk maxPayload h (by omega)
  · have hred : (m.connectDevice path deviceType openOk handshakeOk maxPayload).2 = m := by
      simp [Manager.connectDevice, hb]
    rw [hred]
    exact h
